import Mathlib

/-!
Verification of the budget-consumption engine of the consultancy
time-tracker (`src/server/src/handlers/get_budget_consumption.ts`).

The relational store (tables `clients`, `projects`, `positions`,
`time_entries` of `src/server/src/db/schema.ts`) is embedded as lists of
records; nullable SQL `numeric` columns become `Option ℚ`.  Every
`db.select(...).execute()` of the handler becomes one application of the
read-only primitive `dbSelect`, whose query argument is the pure meaning
of the SQL statement; the handler functions thread the store state
explicitly, so that the absence of writes is a provable fact rather than
a modelling convention.

JavaScript coercions in the source are modelled faithfully:
a nullable numeric column arrives as a string or `null`, and the code
tests it for truthiness before `parseFloat`; the decimal rendering of a
numeric value is a non-empty string, hence truthy exactly when non-null,
so `x ? parseFloat(x) : null` is the identity on the parsed option and
`x ? parseFloat(x) : 0` is `Option.getD _ 0`.  Truthiness of an already
parsed number (`hourlyRate && ...`, `totalBudget && ...`) is `≠ 0`, and
truthiness of an optional input id (`if (input.position_id)`) is
"present and non-zero".  `GROUP BY position.id` is modelled as one group
per stored position row, which agrees with SQL on stores whose serial
primary keys are unique.
-/

namespace TimeTracker

/-- Entity kinds of a budget report (`z.enum(['client','project','position'])`). -/
inductive EntityType : Type
  | client
  | project
  | position
deriving DecidableEq, Repr

/-- Row of the `clients` table (fields the engine reads). -/
structure Client where
  id : Int
  name : String
deriving DecidableEq, Repr

/-- Row of the `projects` table (fields the engine reads);
`budget` is a nullable `numeric(15,2)`. -/
structure Project where
  id : Int
  client_id : Int
  name : String
  budget : Option ℚ
deriving DecidableEq, Repr

/-- Row of the `positions` table (fields the engine reads);
`budget` and `hourly_rate` are nullable numerics. -/
structure Position where
  id : Int
  project_id : Int
  name : String
  budget : Option ℚ
  hourly_rate : Option ℚ
deriving DecidableEq, Repr

/-- Row of the `time_entries` table (fields the engine reads);
`hours` is a non-null `numeric(8,2)`. -/
structure TimeEntry where
  id : Int
  position_id : Int
  hours : ℚ
deriving DecidableEq, Repr

/-- The relational store consumed by the engine. -/
structure Store where
  clients : List Client
  projects : List Project
  positions : List Position
  time_entries : List TimeEntry
deriving DecidableEq, Repr

/-- The `budgetConsumptionInputSchema` filter: all three ids optional. -/
structure BudgetConsumptionInput where
  client_id : Option Int
  project_id : Option Int
  position_id : Option Int
deriving DecidableEq, Repr

/-- The `budgetConsumptionReportSchema` record returned by the engine. -/
structure BudgetConsumptionReport where
  entity_type : EntityType
  entity_id : Int
  entity_name : String
  total_budget : Option ℚ
  consumed_amount : ℚ
  consumption_rate : ℚ
  remaining_budget : Option ℚ
deriving DecidableEq, Repr

/-- `x ? parseFloat(x) : null` on a nullable SQL numeric: the decimal
rendering of a stored numeric is a non-empty string, truthy exactly when
the column is non-null, so the coercion is the identity on the parsed
option. -/
def parseNullableNumeric (x : Option ℚ) : Option ℚ := x

/-- `x ? parseFloat(x) : 0` on a nullable SQL numeric (see
`parseNullableNumeric`): `null` becomes `0`, any value parses to itself. -/
def parseNumericOr0 (x : Option ℚ) : ℚ := x.getD 0

/-- JavaScript truthiness of an optional numeric filter id
(`if (input.position_id)`): `undefined` and `0` are falsy. -/
def optIdTruthy : Option Int → Bool
  | some n => n != 0
  | none => false

/-- A read-only database query: `db.select(...).execute()` returns rows
computed from the store and leaves the store unchanged.  This is the only
primitive of the embedding that touches the store; the source handler
issues no inserts, updates or deletes. -/
def dbSelect {α : Type} (q : Store → α) (s : Store) : α × Store := (q s, s)

/-- Row shape of the position query: the position joined (left join) with
its time entries, `total_hours = SUM(time_entries.hours)` grouped by the
position; the SQL `SUM` is `NULL` exactly when no entry matches. -/
structure PositionRow where
  id : Int
  name : String
  budget : Option ℚ
  hourly_rate : Option ℚ
  total_hours : Option ℚ
deriving DecidableEq, Repr

/-- Meaning of the select in `getPositionConsumption`: positions with
`id = positionId`, left-joined with `time_entries` on
`position_id`, grouped by the position columns. -/
def positionQuery (positionId : Int) (s : Store) : List PositionRow :=
  (s.positions.filter (fun p => p.id == positionId)).map (fun p =>
    let es := s.time_entries.filter (fun e => e.position_id == p.id)
    { id := p.id
      name := p.name
      budget := p.budget
      hourly_rate := p.hourly_rate
      total_hours := if es.isEmpty then none else some ((es.map (·.hours)).sum) })

/-- Meaning of the select in `getProjectConsumption` looking up the
project row by id. -/
def projectQuery (projectId : Int) (s : Store) : List Project :=
  s.projects.filter (fun pj => pj.id == projectId)

/-- Row shape of the grouped consumption queries:
`SUM(hours)` and the position's hourly rate, grouped by position. -/
structure ConsumptionRow where
  total_hours : Option ℚ
  position_hourly_rate : Option ℚ
deriving DecidableEq, Repr

/-- Meaning of the consumption select in `getProjectConsumption`:
`time_entries` inner-joined with `positions` on `position_id`, filtered to
`positions.project_id = projectId`, grouped by position — one row per
position of the project that has at least one time entry. -/
def projectConsumptionQuery (projectId : Int) (s : Store) : List ConsumptionRow :=
  (s.positions.filter (fun p => p.project_id == projectId)).filterMap (fun p =>
    let es := s.time_entries.filter (fun e => e.position_id == p.id)
    if es.isEmpty then none
    else some { total_hours := some ((es.map (·.hours)).sum)
                position_hourly_rate := p.hourly_rate })

/-- Meaning of the select in `getClientConsumption` looking up the client
row by id. -/
def clientQuery (clientId : Int) (s : Store) : List Client :=
  s.clients.filter (fun c => c.id == clientId)

/-- Meaning of the budget aggregate in `getClientConsumption`:
`SUM(projects.budget)` over the client's projects — `NULL` (hence `none`)
exactly when no project of the client has a non-null budget, otherwise
the sum of the non-null budgets. -/
def clientBudgetQuery (clientId : Int) (s : Store) : Option ℚ :=
  let bs := (s.projects.filter (fun pj => pj.client_id == clientId)).filterMap (·.budget)
  if bs.isEmpty then none else some bs.sum

/-- Meaning of the consumption select in `getClientConsumption`:
`time_entries ⋈ positions ⋈ projects` filtered to
`projects.client_id = clientId`, grouped by position — one row per
position belonging to some project of the client that has at least one
time entry. -/
def clientConsumptionQuery (clientId : Int) (s : Store) : List ConsumptionRow :=
  (s.positions.filter (fun p =>
      s.projects.any (fun pj => pj.id == p.project_id && pj.client_id == clientId))).filterMap
    (fun p =>
      let es := s.time_entries.filter (fun e => e.position_id == p.id)
      if es.isEmpty then none
      else some { total_hours := some ((es.map (·.hours)).sum)
                  position_hourly_rate := p.hourly_rate })

/-- Meaning of the first select of `getAllBudgetConsumption`: clients
inner-joined with projects, filtered to non-null project budget, grouped
by client — the clients owning at least one budgeted project. -/
def clientsWithBudgetsQuery (s : Store) : List Client :=
  s.clients.filter (fun c =>
    s.projects.any (fun pj => pj.client_id == c.id && pj.budget.isSome))

/-- Meaning of the second select of `getAllBudgetConsumption`: projects
with a non-null budget. -/
def projectsWithBudgetsQuery (s : Store) : List Project :=
  s.projects.filter (fun pj => pj.budget.isSome)

/-- Meaning of the third select of `getAllBudgetConsumption`: positions
with a non-null budget. -/
def positionsWithBudgetsQuery (s : Store) : List Position :=
  s.positions.filter (fun p => p.budget.isSome)

/-- `getPositionConsumption`: fetch the position with its summed hours;
`null` when absent.  `consumedAmount = hourlyRate * totalHours` only when
the rate is truthy (non-null, non-zero) and hours are positive;
`consumptionRate = totalBudget && totalBudget > 0 ? consumed/budget*100 : 0`;
`remainingBudget = totalBudget ? totalBudget - consumed : null`. -/
def getPositionConsumption (s : Store) (positionId : Int) :
    Option BudgetConsumptionReport × Store :=
  let q1 := dbSelect (positionQuery positionId) s
  match q1.1.head? with
  | none => (none, q1.2)
  | some position =>
    let totalBudget : Option ℚ := parseNullableNumeric position.budget
    let hourlyRate : Option ℚ := parseNullableNumeric position.hourly_rate
    let totalHours : ℚ := parseNumericOr0 position.total_hours
    let consumedAmount : ℚ :=
      match hourlyRate with
      | some rate => if rate ≠ 0 ∧ totalHours > 0 then rate * totalHours else 0
      | none => 0
    let consumptionRate : ℚ :=
      match totalBudget with
      | some b => if b ≠ 0 ∧ b > 0 then consumedAmount / b * 100 else 0
      | none => 0
    let remainingBudget : Option ℚ :=
      match totalBudget with
      | some b => if b ≠ 0 then some (b - consumedAmount) else none
      | none => none
    (some { entity_type := EntityType.position
            entity_id := position.id
            entity_name := position.name
            total_budget := totalBudget
            consumed_amount := consumedAmount
            consumption_rate := consumptionRate
            remaining_budget := remainingBudget }, q1.2)

/-- `getProjectConsumption`: fetch the project (`null` when absent), then
sum `hours * rate` over the per-position consumption groups, each factor
defaulting to `0` when its column is `null`. -/
def getProjectConsumption (s : Store) (projectId : Int) :
    Option BudgetConsumptionReport × Store :=
  let q1 := dbSelect (projectQuery projectId) s
  match q1.1.head? with
  | none => (none, q1.2)
  | some project =>
    let q2 := dbSelect (projectConsumptionQuery projectId) q1.2
    let totalBudget : Option ℚ := parseNullableNumeric project.budget
    let consumedAmount : ℚ :=
      q2.1.foldl (fun acc c =>
        acc + parseNumericOr0 c.total_hours * parseNumericOr0 c.position_hourly_rate) 0
    let consumptionRate : ℚ :=
      match totalBudget with
      | some b => if b ≠ 0 ∧ b > 0 then consumedAmount / b * 100 else 0
      | none => 0
    let remainingBudget : Option ℚ :=
      match totalBudget with
      | some b => if b ≠ 0 then some (b - consumedAmount) else none
      | none => none
    (some { entity_type := EntityType.project
            entity_id := project.id
            entity_name := project.name
            total_budget := totalBudget
            consumed_amount := consumedAmount
            consumption_rate := consumptionRate
            remaining_budget := remainingBudget }, q2.2)

/-- `getClientConsumption`: fetch the client (`null` when absent), sum the
project budgets (`null` propagating as absent total budget), then sum
`hours * rate` over the per-position consumption groups of the client. -/
def getClientConsumption (s : Store) (clientId : Int) :
    Option BudgetConsumptionReport × Store :=
  let q1 := dbSelect (clientQuery clientId) s
  match q1.1.head? with
  | none => (none, q1.2)
  | some client =>
    let q2 := dbSelect (clientBudgetQuery clientId) q1.2
    let totalBudget : Option ℚ := parseNullableNumeric q2.1
    let q3 := dbSelect (clientConsumptionQuery clientId) q2.2
    let consumedAmount : ℚ :=
      q3.1.foldl (fun acc c =>
        acc + parseNumericOr0 c.total_hours * parseNumericOr0 c.position_hourly_rate) 0
    let consumptionRate : ℚ :=
      match totalBudget with
      | some b => if b ≠ 0 ∧ b > 0 then consumedAmount / b * 100 else 0
      | none => 0
    let remainingBudget : Option ℚ :=
      match totalBudget with
      | some b => if b ≠ 0 then some (b - consumedAmount) else none
      | none => none
    (some { entity_type := EntityType.client
            entity_id := client.id
            entity_name := client.name
            total_budget := totalBudget
            consumed_amount := consumedAmount
            consumption_rate := consumptionRate
            remaining_budget := remainingBudget }, q3.2)

/-- The `for ... of` loops of `getAllBudgetConsumption`: run the given
consumption handler on each id in turn, threading the store state, and
collect the non-null reports in order. -/
def reportLoop (f : Store → Int → Option BudgetConsumptionReport × Store) :
    List Int → Store → List BudgetConsumptionReport × Store
  | [], s => ([], s)
  | i :: rest, s =>
    let r := f s i
    let rs := reportLoop f rest r.2
    (r.1.toList ++ rs.1, rs.2)

/-- `getAllBudgetConsumption`: client reports for every client owning a
budgeted project, then project reports for every budgeted project, then
position reports for every budgeted position. -/
def getAllBudgetConsumption (s : Store) :
    List BudgetConsumptionReport × Store :=
  let q1 := dbSelect clientsWithBudgetsQuery s
  let r1 := reportLoop getClientConsumption (q1.1.map (·.id)) q1.2
  let q2 := dbSelect projectsWithBudgetsQuery r1.2
  let r2 := reportLoop getProjectConsumption (q2.1.map (·.id)) q2.2
  let q3 := dbSelect positionsWithBudgetsQuery r2.2
  let r3 := reportLoop getPositionConsumption (q3.1.map (·.id)) q3.2
  (r1.1 ++ r2.1 ++ r3.1, r3.2)

/-- `getBudgetConsumption`: first-match-wins on the truthiness of
`position_id`, then `project_id`, then `client_id`; otherwise the
unscoped report.  Under the truthiness guard the id equals
`Option.getD _ 0`. -/
def getBudgetConsumption (input : BudgetConsumptionInput) (s : Store) :
    List BudgetConsumptionReport × Store :=
  if optIdTruthy input.position_id then
    let r := getPositionConsumption s (input.position_id.getD 0)
    (r.1.toList, r.2)
  else if optIdTruthy input.project_id then
    let r := getProjectConsumption s (input.project_id.getD 0)
    (r.1.toList, r.2)
  else if optIdTruthy input.client_id then
    let r := getClientConsumption s (input.client_id.getD 0)
    (r.1.toList, r.2)
  else
    getAllBudgetConsumption s

/-- Relation between the budget fields of a report as the engine computes
them: with a positive total budget the rate is `consumed / budget * 100`
and the remaining budget is `budget - consumed`; with a present-but-zero
total budget the rate is `0` and the remaining budget is absent (the
source tests the parsed number for truthiness, so a zero budget falls
into the `null` branch of `remainingBudget`); with an absent budget the
rate is `0` and the remaining budget is absent. -/
def reportBudgetConsistent (r : BudgetConsumptionReport) : Prop :=
  (∀ b : ℚ, r.total_budget = some b →
    (0 < b → r.consumption_rate = r.consumed_amount / b * 100 ∧
      r.remaining_budget = some (b - r.consumed_amount)) ∧
    (b = 0 → r.consumption_rate = 0 ∧ r.remaining_budget = none)) ∧
  (r.total_budget = none → r.consumption_rate = 0 ∧ r.remaining_budget = none)

/-- Consumed amount of the position-scope report for a given position id
(`0` when the position does not exist, a case the sum claims never hit). -/
def positionConsumedAmount (s : Store) (pid : Int) : ℚ :=
  match (getPositionConsumption s pid).1 with
  | some r => r.consumed_amount
  | none => 0

/-- Demonstration store: one client, one project with budget `5000`, a
position with budget `1000`, hourly rate `100` and a single `20`-hour
time entry, and a second position with budget `500`, no hourly rate and
a `3`-hour time entry. -/
def demoStore : Store :=
  { clients := [{ id := 1, name := "Acme" }]
    projects := [{ id := 1, client_id := 1, name := "Site", budget := some 5000 }]
    positions :=
      [{ id := 1, project_id := 1, name := "Dev", budget := some 1000, hourly_rate := some 100 },
       { id := 2, project_id := 1, name := "Plan", budget := some 500, hourly_rate := none }]
    time_entries :=
      [{ id := 1, position_id := 1, hours := 20 },
       { id := 2, position_id := 2, hours := 3 }] }

/-- Store whose single position has a present-but-zero budget (`0.00` in
the database, a non-negative numeric the schema admits), hourly rate
`100` and one `20`-hour entry. -/
def zeroBudgetStore : Store :=
  { clients := [{ id := 1, name := "Acme" }]
    projects := [{ id := 1, client_id := 1, name := "Site", budget := none }]
    positions :=
      [{ id := 1, project_id := 1, name := "Dev", budget := some 0, hourly_rate := some 100 }]
    time_entries := [{ id := 1, position_id := 1, hours := 20 }] }

/-- Report the engine computes for position `1` of `demoStore`:
budget `1000`, rate `100`, a single `20`-hour entry. -/
def demoPositionReport : BudgetConsumptionReport :=
  { entity_type := EntityType.position
    entity_id := 1
    entity_name := "Dev"
    total_budget := some 1000
    consumed_amount := 2000
    consumption_rate := 200
    remaining_budget := some (-1000) }

/-- Report the engine computes for client `1` of `demoStore`. -/
def demoClientReport : BudgetConsumptionReport :=
  { entity_type := EntityType.client
    entity_id := 1
    entity_name := "Acme"
    total_budget := some 5000
    consumed_amount := 2000
    consumption_rate := 40
    remaining_budget := some 3000 }

/-- Report the engine computes for project `1` of `demoStore`. -/
def demoProjectReport : BudgetConsumptionReport :=
  { entity_type := EntityType.project
    entity_id := 1
    entity_name := "Site"
    total_budget := some 5000
    consumed_amount := 2000
    consumption_rate := 40
    remaining_budget := some 3000 }

theorem getPositionConsumption_snd (s : Store) (pid : Int) :
    (getPositionConsumption s pid).2 = s := by
  unfold getPositionConsumption
  dsimp only [dbSelect]
  cases hq : (positionQuery pid s).head? <;> simp only [hq]

theorem getProjectConsumption_snd (s : Store) (pid : Int) :
    (getProjectConsumption s pid).2 = s := by
  unfold getProjectConsumption
  dsimp only [dbSelect]
  cases hq : (projectQuery pid s).head? <;> simp only [hq]

theorem getClientConsumption_snd (s : Store) (cid : Int) :
    (getClientConsumption s cid).2 = s := by
  unfold getClientConsumption
  dsimp only [dbSelect]
  cases hq : (clientQuery cid s).head? <;> simp only [hq]

theorem reportLoop_snd (f : Store → Int → Option BudgetConsumptionReport × Store)
    (hf : ∀ st i, (f st i).2 = st) (ids : List Int) (s : Store) :
    (reportLoop f ids s).2 = s := by
  induction ids with
  | nil => rfl
  | cons i rest ih => simp only [reportLoop, hf s i, ih]

theorem reportLoop_fst (f : Store → Int → Option BudgetConsumptionReport × Store)
    (hf : ∀ st i, (f st i).2 = st) (ids : List Int) (s : Store) :
    (reportLoop f ids s).1 = ids.filterMap (fun i => (f s i).1) := by
  induction ids with
  | nil => rfl
  | cons i rest ih =>
    simp only [reportLoop, hf s i, ih, List.filterMap_cons]
    cases (f s i).1 <;> simp

theorem getAllBudgetConsumption_snd (s : Store) :
    (getAllBudgetConsumption s).2 = s := by
  unfold getAllBudgetConsumption
  simp only [dbSelect, reportLoop_snd getClientConsumption getClientConsumption_snd,
    reportLoop_snd getProjectConsumption getProjectConsumption_snd,
    reportLoop_snd getPositionConsumption getPositionConsumption_snd]

/-- Decomposition of the unscoped result into the three loops, each run
against the unchanged store. -/
theorem getAllBudgetConsumption_fst (s : Store) :
    (getAllBudgetConsumption s).1 =
      ((clientsWithBudgetsQuery s).map (·.id)).filterMap
          (fun i => (getClientConsumption s i).1)
        ++ ((projectsWithBudgetsQuery s).map (·.id)).filterMap
          (fun i => (getProjectConsumption s i).1)
        ++ ((positionsWithBudgetsQuery s).map (·.id)).filterMap
          (fun i => (getPositionConsumption s i).1) := by
  unfold getAllBudgetConsumption
  simp only [dbSelect, reportLoop_snd getClientConsumption getClientConsumption_snd,
    reportLoop_fst getClientConsumption getClientConsumption_snd,
    reportLoop_snd getProjectConsumption getProjectConsumption_snd,
    reportLoop_fst getProjectConsumption getProjectConsumption_snd,
    reportLoop_fst getPositionConsumption getPositionConsumption_snd]

/-- A report whose rate and remaining-budget fields are computed from its
total budget and consumed amount by the source formulas satisfies
`reportBudgetConsistent`. -/
theorem reportBudgetConsistent_of (r : BudgetConsumptionReport)
    (hrate : r.consumption_rate =
      match r.total_budget with
      | some b => if b ≠ 0 ∧ b > 0 then r.consumed_amount / b * 100 else 0
      | none => 0)
    (hrem : r.remaining_budget =
      match r.total_budget with
      | some b => if b ≠ 0 then some (b - r.consumed_amount) else none
      | none => none) :
    reportBudgetConsistent r := by
  rcases htb : r.total_budget with _ | b0 <;>
    rw [htb] at hrate hrem <;> dsimp only at hrate hrem
  · refine ⟨fun b hb => ?_, fun _ => ⟨hrate, hrem⟩⟩
    rw [htb] at hb
    cases hb
  · refine ⟨fun b hb => ?_, fun h => ?_⟩
    · rw [htb] at hb
      obtain rfl := Option.some.inj hb
      refine ⟨fun hpos => ⟨?_, ?_⟩, fun hz => ?_⟩
      · rw [hrate, if_pos ⟨ne_of_gt hpos, hpos⟩]
      · rw [hrem, if_pos (ne_of_gt hpos)]
      · subst hz
        exact ⟨by rw [hrate, if_neg (by simp)], by rw [hrem, if_neg (by simp)]⟩
    · rw [htb] at h
      cases h

theorem getPositionConsumption_consistent (s : Store) (pid : Int)
    (r : BudgetConsumptionReport) (h : (getPositionConsumption s pid).1 = some r) :
    reportBudgetConsistent r := by
  unfold getPositionConsumption at h
  dsimp only [dbSelect] at h
  rcases hq : (positionQuery pid s).head? with _ | row
  · rw [hq] at h; cases h
  · rw [hq] at h
    dsimp only at h
    obtain rfl := Option.some.inj h
    exact reportBudgetConsistent_of _ rfl rfl

theorem getProjectConsumption_consistent (s : Store) (pid : Int)
    (r : BudgetConsumptionReport) (h : (getProjectConsumption s pid).1 = some r) :
    reportBudgetConsistent r := by
  unfold getProjectConsumption at h
  dsimp only [dbSelect] at h
  rcases hq : (projectQuery pid s).head? with _ | row
  · rw [hq] at h; cases h
  · rw [hq] at h
    dsimp only at h
    obtain rfl := Option.some.inj h
    exact reportBudgetConsistent_of _ rfl rfl

theorem getClientConsumption_consistent (s : Store) (cid : Int)
    (r : BudgetConsumptionReport) (h : (getClientConsumption s cid).1 = some r) :
    reportBudgetConsistent r := by
  unfold getClientConsumption at h
  dsimp only [dbSelect] at h
  rcases hq : (clientQuery cid s).head? with _ | row
  · rw [hq] at h; cases h
  · rw [hq] at h
    dsimp only at h
    obtain rfl := Option.some.inj h
    exact reportBudgetConsistent_of _ rfl rfl

/-- Every report the engine emits, for every filter and store, has its
rate and remaining-budget fields consistent with its total budget and
consumed amount. -/
theorem reportBudgetConsistent_of_mem (input : BudgetConsumptionInput) (s : Store)
    (r : BudgetConsumptionReport) (hr : r ∈ (getBudgetConsumption input s).1) :
    reportBudgetConsistent r := by
  unfold getBudgetConsumption at hr
  split at hr
  · simp only [Option.mem_toList, Option.mem_def] at hr
    exact getPositionConsumption_consistent _ _ _ hr
  · split at hr
    · simp only [Option.mem_toList, Option.mem_def] at hr
      exact getProjectConsumption_consistent _ _ _ hr
    · split at hr
      · simp only [Option.mem_toList, Option.mem_def] at hr
        exact getClientConsumption_consistent _ _ _ hr
      · rw [getAllBudgetConsumption_fst] at hr
        simp only [List.mem_append, List.mem_filterMap] at hr
        rcases hr with ((⟨i, _, hi⟩ | ⟨i, _, hi⟩) | ⟨i, _, hi⟩)
        · exact getClientConsumption_consistent _ _ _ hi
        · exact getProjectConsumption_consistent _ _ _ hi
        · exact getPositionConsumption_consistent _ _ _ hi

/-- C8: every invocation of `getBudgetConsumption`, for every filter,
leaves the data store unchanged: the clients, projects, positions and
time-entries tables after the call equal their state before the call —
the engine issues only read-only `dbSelect` queries. -/
theorem getBudgetConsumption_preserves_store
    (input : BudgetConsumptionInput) (s : Store) :
    (getBudgetConsumption input s).2 = s := by
  unfold getBudgetConsumption
  split
  · exact getPositionConsumption_snd s _
  · split
    · exact getProjectConsumption_snd s _
    · split
      · exact getClientConsumption_snd s _
      · exact getAllBudgetConsumption_snd s

/-- C9: a filter field set to `0` is treated as unset: with
`position_id = 0` (resp. `project_id = 0`, `client_id = 0`) the engine
does not attempt that scope's lookup but behaves exactly as if the field
were absent, falling through to the next filter in precedence order or
to the unscoped query. -/
theorem zero_filter_id_treated_as_unset (s : Store) (a b : Option Int) :
    ((getBudgetConsumption ⟨a, b, some 0⟩ s).1 =
      (getBudgetConsumption ⟨a, b, none⟩ s).1) ∧
    ((getBudgetConsumption ⟨a, some 0, b⟩ s).1 =
      (getBudgetConsumption ⟨a, none, b⟩ s).1) ∧
    ((getBudgetConsumption ⟨some 0, a, b⟩ s).1 =
      (getBudgetConsumption ⟨none, a, b⟩ s).1) := by
  refine ⟨?_, ?_, ?_⟩ <;> simp [getBudgetConsumption, optIdTruthy]

/-- C4: when more than one filter field is set (to a truthy id), the
scope is resolved first-match-wins: `position_id` takes precedence over
`project_id`, which takes precedence over `client_id`; the computed
result equals the one obtained with only the winning field set. -/
theorem filter_precedence (input : BudgetConsumptionInput) (s : Store) :
    (∀ i : Int, input.position_id = some i → i ≠ 0 →
      (getBudgetConsumption input s).1 =
        (getBudgetConsumption ⟨none, none, some i⟩ s).1) ∧
    (optIdTruthy input.position_id = false →
      ∀ i : Int, input.project_id = some i → i ≠ 0 →
      (getBudgetConsumption input s).1 =
        (getBudgetConsumption ⟨none, some i, none⟩ s).1) ∧
    (optIdTruthy input.position_id = false →
      optIdTruthy input.project_id = false →
      ∀ i : Int, input.client_id = some i → i ≠ 0 →
      (getBudgetConsumption input s).1 =
        (getBudgetConsumption ⟨some i, none, none⟩ s).1) := by
  rcases input with ⟨a, b, c⟩
  refine ⟨?_, ?_, ?_⟩
  · intro i hi hnz
    subst hi
    simp [getBudgetConsumption, optIdTruthy, hnz]
  · intro hpos i hi hnz
    subst hi
    simp only [getBudgetConsumption, optIdTruthy] at hpos ⊢
    simp [hpos, hnz]
  · intro hpos hproj i hi hnz
    subst hi
    simp only [getBudgetConsumption, optIdTruthy] at hpos hproj ⊢
    simp [hpos, hproj, hnz]

/-- C5: a scoped filter whose id matches no stored entity of that kind
yields the empty list (the branch returns `null` and nothing is pushed);
the embedding is total, mirroring that the source does not throw in this
case. -/
theorem unknown_id_yields_empty (s : Store) (i : Int) (hnz : i ≠ 0) :
    ((∀ p ∈ s.positions, p.id ≠ i) →
      (getBudgetConsumption ⟨none, none, some i⟩ s).1 = []) ∧
    ((∀ pj ∈ s.projects, pj.id ≠ i) →
      (getBudgetConsumption ⟨none, some i, none⟩ s).1 = []) ∧
    ((∀ c ∈ s.clients, c.id ≠ i) →
      (getBudgetConsumption ⟨some i, none, none⟩ s).1 = []) := by
  refine ⟨?_, ?_, ?_⟩
  · intro h
    have hfil : s.positions.filter (fun p => p.id == i) = [] :=
      List.filter_eq_nil_iff.mpr (fun p hp => by simpa using h p hp)
    simp only [getBudgetConsumption, optIdTruthy]
    simp only [bne_iff_ne, ne_eq, hnz, not_false_eq_true, if_true, Option.getD_some]
    unfold getPositionConsumption
    dsimp only [dbSelect]
    unfold positionQuery
    rw [hfil]
    rfl
  · intro h
    have hfil : s.projects.filter (fun pj => pj.id == i) = [] :=
      List.filter_eq_nil_iff.mpr (fun pj hp => by simpa using h pj hp)
    simp only [getBudgetConsumption, optIdTruthy]
    simp only [bne_iff_ne, ne_eq, hnz, not_false_eq_true, if_true, Option.getD_some]
    unfold getProjectConsumption
    dsimp only [dbSelect]
    unfold projectQuery
    rw [hfil]
    rfl
  · intro h
    have hfil : s.clients.filter (fun c => c.id == i) = [] :=
      List.filter_eq_nil_iff.mpr (fun c hc => by simpa using h c hc)
    simp only [getBudgetConsumption, optIdTruthy]
    simp only [bne_iff_ne, ne_eq, hnz, not_false_eq_true, if_true, Option.getD_some]
    unfold getClientConsumption
    dsimp only [dbSelect]
    unfold clientQuery
    rw [hfil]
    rfl

theorem demoPositionReport_mem :
    demoPositionReport ∈ (getBudgetConsumption ⟨none, none, some 1⟩ demoStore).1 := by
  norm_num [getBudgetConsumption, getPositionConsumption, optIdTruthy, dbSelect,
    positionQuery, parseNullableNumeric, parseNumericOr0, demoStore, demoPositionReport]

/-- C1 (amended): every report the engine emits has
`consumption_rate = consumed/budget*100` and
`remaining_budget = budget - consumed` when the budget is present and
positive, and `consumption_rate = 0` with an absent `remaining_budget`
when the budget is absent; when the budget is present but zero, the rate
is `0` and the remaining budget is also absent (rather than
`budget - consumed`, which the claim as stated would require). -/
theorem budget_rate_and_remaining_consistent
    (input : BudgetConsumptionInput) (s : Store) (r : BudgetConsumptionReport)
    (hr : r ∈ (getBudgetConsumption input s).1) :
    reportBudgetConsistent r :=
  reportBudgetConsistent_of_mem input s r hr

theorem budget_rate_and_remaining_consistent_witness :
    reportBudgetConsistent demoPositionReport :=
  budget_rate_and_remaining_consistent ⟨none, none, some 1⟩ demoStore
    demoPositionReport demoPositionReport_mem

/-- C1 counterexample: on `zeroBudgetStore`, whose position has the
present budget `0.00`, hourly rate `100` and one `20`-hour entry, the
emitted report has `total_budget = some 0` (present) and
`consumed_amount = 2000`, but `remaining_budget = none` — not
`some (0 - 2000)` as "remaining_budget equals budget minus
consumed_amount when the budget is present" would require. -/
theorem zero_budget_remaining_counterexample :
    ((getBudgetConsumption ⟨none, none, some 1⟩ zeroBudgetStore).1).map
        (fun r => (r.total_budget, r.consumed_amount, r.remaining_budget)) =
      [(some 0, 2000, none)] ∧
    (none : Option ℚ) ≠ some ((0 : ℚ) - 2000) := by
  constructor
  · norm_num [getBudgetConsumption, getPositionConsumption, optIdTruthy, dbSelect,
      positionQuery, parseNullableNumeric, parseNumericOr0, zeroBudgetStore]
  · simp

/-- C2: for every position whose hourly rate is absent, the
position-scope report's consumed amount is `0`, for every set of logged
time entries on that position. -/
theorem null_rate_consumes_zero (s : Store) (pid : Int) (p : Position)
    (hfind : s.positions.find? (fun q => q.id == pid) = some p)
    (hrate : p.hourly_rate = none) :
    ∃ r, (getPositionConsumption s pid).1 = some r ∧ r.consumed_amount = 0 := by
  have hq : (positionQuery pid s).head? =
      some { id := p.id
             name := p.name
             budget := p.budget
             hourly_rate := p.hourly_rate
             total_hours :=
               if (s.time_entries.filter (fun e => e.position_id == p.id)).isEmpty
               then none
               else some (((s.time_entries.filter
                 (fun e => e.position_id == p.id)).map (·.hours)).sum) } := by
    unfold positionQuery
    rw [List.head?_map, List.filter_head?, hfind]
    rfl
  unfold getPositionConsumption
  dsimp only [dbSelect]
  rw [hq]
  dsimp only
  refine ⟨_, rfl, ?_⟩
  dsimp only [parseNullableNumeric]
  rw [hrate]

theorem null_rate_consumes_zero_witness :
    ∃ r, (getPositionConsumption demoStore 2).1 = some r ∧ r.consumed_amount = 0 :=
  null_rate_consumes_zero demoStore 2
    { id := 2, project_id := 1, name := "Plan", budget := some 500, hourly_rate := none }
    (by simp [demoStore, List.find?]) rfl

/-- C7 counterexample: on `zeroBudgetStore` the consumed amount `2000`
exceeds the present budget `0`, yet the consumption rate is `0` (not
above `100`) and the remaining budget is absent (not negative): the
claim's over-budget behaviour fails when the present budget is zero. -/
theorem over_budget_zero_counterexample :
    ((getBudgetConsumption ⟨none, none, some 1⟩ zeroBudgetStore).1).map
        (fun r => (r.total_budget, r.consumed_amount, r.consumption_rate,
          r.remaining_budget)) =
      [(some 0, 2000, 0, none)] ∧
    (0 : ℚ) < 2000 ∧ ¬ (100 : ℚ) < 0 := by
  refine ⟨?_, by norm_num, by norm_num⟩
  norm_num [getBudgetConsumption, getPositionConsumption, optIdTruthy, dbSelect,
    positionQuery, parseNullableNumeric, parseNumericOr0, zeroBudgetStore]

/-- C7 (amended): whenever the consumed amount exceeds a positive
present budget, the consumption rate exceeds `100` and the remaining
budget is negative, with no clamping; and the concrete scenario — a
position with budget `1000.00`, hourly rate `100.00` and a single
`20.00`-hour entry — reports `consumed_amount = 2000`,
`consumption_rate = 200`, `remaining_budget = -1000`. -/
theorem over_budget_unclamped :
    (∀ (input : BudgetConsumptionInput) (s : Store) (r : BudgetConsumptionReport),
      r ∈ (getBudgetConsumption input s).1 → ∀ b : ℚ, r.total_budget = some b →
      0 < b → b < r.consumed_amount →
      100 < r.consumption_rate ∧
        ∃ x : ℚ, r.remaining_budget = some x ∧ x < 0) ∧
    (getBudgetConsumption ⟨none, none, some 1⟩ demoStore).1 = [demoPositionReport] := by
  constructor
  · intro input s r hr b hb hbpos hover
    obtain ⟨hc, -⟩ := reportBudgetConsistent_of_mem input s r hr
    obtain ⟨hrate, hrem⟩ := (hc b hb).1 hbpos
    constructor
    · rw [hrate]
      have h1 : 1 < r.consumed_amount / b := (one_lt_div hbpos).mpr hover
      calc (100 : ℚ) = 1 * 100 := by norm_num
        _ < r.consumed_amount / b * 100 :=
          mul_lt_mul_of_pos_right h1 (by norm_num)
    · exact ⟨b - r.consumed_amount, hrem, sub_neg.mpr hover⟩
  · norm_num [getBudgetConsumption, getPositionConsumption, optIdTruthy, dbSelect,
      positionQuery, parseNullableNumeric, parseNumericOr0, demoStore, demoPositionReport]

theorem over_budget_unclamped_witness :
    100 < demoPositionReport.consumption_rate ∧
      ∃ x : ℚ, demoPositionReport.remaining_budget = some x ∧ x < 0 :=
  over_budget_unclamped.1 ⟨none, none, some 1⟩ demoStore demoPositionReport
    demoPositionReport_mem 1000 rfl (by norm_num) (by norm_num [demoPositionReport])

theorem filter_precedence_witness :
    (getBudgetConsumption ⟨some 1, some 1, some 1⟩ demoStore).1 =
      (getBudgetConsumption ⟨none, none, some 1⟩ demoStore).1 :=
  (filter_precedence ⟨some 1, some 1, some 1⟩ demoStore).1 1 rfl (by decide)

theorem unknown_id_yields_empty_witness :
    (getBudgetConsumption ⟨none, none, some 99⟩ demoStore).1 = [] :=
  (unknown_id_yields_empty demoStore 99 (by decide)).1 (by decide)

theorem positionQuery_head?_id (s : Store) (i : Int) (row : PositionRow)
    (h : (positionQuery i s).head? = some row) : row.id = i := by
  unfold positionQuery at h
  rw [List.head?_map, List.filter_head?] at h
  rcases hfind : s.positions.find? (fun p => p.id == i) with _ | p
  · rw [hfind] at h
    cases h
  · rw [hfind] at h
    dsimp only [Option.map] at h
    have hid : (p.id == i) = true :=
      List.find?_some (p := fun (q : Position) => q.id == i) hfind
    obtain rfl := Option.some.inj h
    simpa using hid

theorem projectQuery_head?_id (s : Store) (i : Int) (row : Project)
    (h : (projectQuery i s).head? = some row) : row.id = i := by
  unfold projectQuery at h
  rw [List.filter_head?] at h
  have hid : (row.id == i) = true :=
    List.find?_some (p := fun (q : Project) => q.id == i) h
  simpa using hid

theorem clientQuery_head?_id (s : Store) (i : Int) (row : Client)
    (h : (clientQuery i s).head? = some row) : row.id = i := by
  unfold clientQuery at h
  rw [List.filter_head?] at h
  have hid : (row.id == i) = true :=
    List.find?_some (p := fun (q : Client) => q.id == i) h
  simpa using hid

theorem getPositionConsumption_fields (s : Store) (i : Int)
    (r : BudgetConsumptionReport) (h : (getPositionConsumption s i).1 = some r) :
    r.entity_type = EntityType.position ∧ r.entity_id = i := by
  unfold getPositionConsumption at h
  dsimp only [dbSelect] at h
  rcases hq : (positionQuery i s).head? with _ | row
  · rw [hq] at h
    cases h
  · rw [hq] at h
    dsimp only at h
    obtain rfl := Option.some.inj h
    exact ⟨rfl, positionQuery_head?_id s i row hq⟩

theorem getProjectConsumption_fields (s : Store) (i : Int)
    (r : BudgetConsumptionReport) (h : (getProjectConsumption s i).1 = some r) :
    r.entity_type = EntityType.project ∧ r.entity_id = i := by
  unfold getProjectConsumption at h
  dsimp only [dbSelect] at h
  rcases hq : (projectQuery i s).head? with _ | row
  · rw [hq] at h
    cases h
  · rw [hq] at h
    dsimp only at h
    obtain rfl := Option.some.inj h
    exact ⟨rfl, projectQuery_head?_id s i row hq⟩

theorem getClientConsumption_fields (s : Store) (i : Int)
    (r : BudgetConsumptionReport) (h : (getClientConsumption s i).1 = some r) :
    r.entity_type = EntityType.client ∧ r.entity_id = i := by
  unfold getClientConsumption at h
  dsimp only [dbSelect] at h
  rcases hq : (clientQuery i s).head? with _ | row
  · rw [hq] at h
    cases h
  · rw [hq] at h
    dsimp only at h
    obtain rfl := Option.some.inj h
    exact ⟨rfl, clientQuery_head?_id s i row hq⟩

/-- C10: a scoped call returns at most one report, and a returned report
carries the resolved scope's entity type and the requested id. -/
theorem scoped_result_shape (input : BudgetConsumptionInput) (s : Store) :
    (∀ i : Int, input.position_id = some i → i ≠ 0 →
      (getBudgetConsumption input s).1.length ≤ 1 ∧
      ∀ r ∈ (getBudgetConsumption input s).1,
        r.entity_type = EntityType.position ∧ r.entity_id = i) ∧
    (optIdTruthy input.position_id = false →
      ∀ i : Int, input.project_id = some i → i ≠ 0 →
      (getBudgetConsumption input s).1.length ≤ 1 ∧
      ∀ r ∈ (getBudgetConsumption input s).1,
        r.entity_type = EntityType.project ∧ r.entity_id = i) ∧
    (optIdTruthy input.position_id = false →
      optIdTruthy input.project_id = false →
      ∀ i : Int, input.client_id = some i → i ≠ 0 →
      (getBudgetConsumption input s).1.length ≤ 1 ∧
      ∀ r ∈ (getBudgetConsumption input s).1,
        r.entity_type = EntityType.client ∧ r.entity_id = i) := by
  rcases input with ⟨a, b, c⟩
  refine ⟨?_, ?_, ?_⟩
  · intro i hi hnz
    subst hi
    have hred : (getBudgetConsumption ⟨a, b, some i⟩ s).1 =
        (getPositionConsumption s i).1.toList := by
      simp [getBudgetConsumption, optIdTruthy, hnz]
    rw [hred]
    refine ⟨?_, ?_⟩
    · cases (getPositionConsumption s i).1 <;> simp
    · intro r hr
      rw [Option.mem_toList, Option.mem_def] at hr
      exact getPositionConsumption_fields s i r hr
  · intro hpos i hi hnz
    subst hi
    have hred : (getBudgetConsumption ⟨a, some i, c⟩ s).1 =
        (getProjectConsumption s i).1.toList := by
      simp only [getBudgetConsumption, optIdTruthy] at hpos ⊢
      simp [hpos, hnz]
    rw [hred]
    refine ⟨?_, ?_⟩
    · cases (getProjectConsumption s i).1 <;> simp
    · intro r hr
      rw [Option.mem_toList, Option.mem_def] at hr
      exact getProjectConsumption_fields s i r hr
  · intro hpos hproj i hi hnz
    subst hi
    have hred : (getBudgetConsumption ⟨some i, b, c⟩ s).1 =
        (getClientConsumption s i).1.toList := by
      simp only [getBudgetConsumption, optIdTruthy] at hpos hproj ⊢
      simp [hpos, hproj, hnz]
    rw [hred]
    refine ⟨?_, ?_⟩
    · cases (getClientConsumption s i).1 <;> simp
    · intro r hr
      rw [Option.mem_toList, Option.mem_def] at hr
      exact getClientConsumption_fields s i r hr

theorem scoped_result_shape_witness :
    (getBudgetConsumption ⟨none, none, some 1⟩ demoStore).1.length ≤ 1 ∧
      ∀ r ∈ (getBudgetConsumption ⟨none, none, some 1⟩ demoStore).1,
        r.entity_type = EntityType.position ∧ r.entity_id = 1 :=
  (scoped_result_shape ⟨none, none, some 1⟩ demoStore).1 1 rfl (by decide)

theorem client_report_exists (s : Store) (i : Int)
    (hex : ∃ c ∈ s.clients, c.id = i) :
    ∃ rep, (getClientConsumption s i).1 = some rep ∧
      rep.entity_type = EntityType.client ∧ rep.entity_id = i := by
  obtain ⟨c, hc, hid⟩ := hex
  have hsome : (s.clients.find? (fun q => q.id == i)).isSome :=
    List.find?_isSome.mpr ⟨c, hc, by simp [hid]⟩
  rcases hq : (clientQuery i s).head? with _ | row
  · exfalso
    unfold clientQuery at hq
    rw [List.filter_head?] at hq
    rw [hq] at hsome
    simp at hsome
  · unfold getClientConsumption
    dsimp only [dbSelect]
    rw [hq]
    dsimp only
    exact ⟨_, rfl, rfl, clientQuery_head?_id s i row hq⟩

theorem project_report_exists (s : Store) (i : Int)
    (hex : ∃ pj ∈ s.projects, pj.id = i) :
    ∃ rep, (getProjectConsumption s i).1 = some rep ∧
      rep.entity_type = EntityType.project ∧ rep.entity_id = i := by
  obtain ⟨pj, hpj, hid⟩ := hex
  have hsome : (s.projects.find? (fun q => q.id == i)).isSome :=
    List.find?_isSome.mpr ⟨pj, hpj, by simp [hid]⟩
  rcases hq : (projectQuery i s).head? with _ | row
  · exfalso
    unfold projectQuery at hq
    rw [List.filter_head?] at hq
    rw [hq] at hsome
    simp at hsome
  · unfold getProjectConsumption
    dsimp only [dbSelect]
    rw [hq]
    dsimp only
    exact ⟨_, rfl, rfl, projectQuery_head?_id s i row hq⟩

theorem position_report_exists (s : Store) (i : Int)
    (hex : ∃ p ∈ s.positions, p.id = i) :
    ∃ rep, (getPositionConsumption s i).1 = some rep ∧
      rep.entity_type = EntityType.position ∧ rep.entity_id = i := by
  obtain ⟨p, hp, hid⟩ := hex
  have hsome : (s.positions.find? (fun q => q.id == i)).isSome :=
    List.find?_isSome.mpr ⟨p, hp, by simp [hid]⟩
  rcases hq : (positionQuery i s).head? with _ | row
  · exfalso
    unfold positionQuery at hq
    rw [List.head?_map, List.filter_head?] at hq
    rcases hfind : s.positions.find? (fun q => q.id == i) with _ | p2
    · rw [hfind] at hsome
      simp at hsome
    · rw [hfind] at hq
      cases hq
  · unfold getPositionConsumption
    dsimp only [dbSelect]
    rw [hq]
    dsimp only
    exact ⟨_, rfl, rfl, positionQuery_head?_id s i row hq⟩

theorem filterMap_map_of_forall {α β γ : Type} (l : List α)
    (f : α → Option β) (g : β → γ) (v : α → γ)
    (H : ∀ x ∈ l, ∃ y, f x = some y ∧ g y = v x) :
    (l.filterMap f).map g = l.map v := by
  induction l with
  | nil => rfl
  | cons a as ih =>
    obtain ⟨y, hy, hgy⟩ := H a (List.mem_cons_self a as)
    rw [List.filterMap_cons, hy]
    dsimp only
    rw [List.map_cons, List.map_cons, hgy,
      ih (fun x hx => H x (List.mem_cons_of_mem a hx))]

/-- C6: with no filter field set, the engine returns exactly one
client-level report per client owning at least one project with a
non-null budget, then one project-level report per project with a
non-null budget, then one position-level report per position with a
non-null budget — in that block order — and each returned report is the
corresponding entity's scope report. -/
theorem unscoped_reports_structure (s : Store) :
    ((getBudgetConsumption ⟨none, none, none⟩ s).1).map
        (fun r => (r.entity_type, r.entity_id)) =
      ((s.clients.filter (fun c =>
          s.projects.any (fun pj => pj.client_id == c.id && pj.budget.isSome))).map
        (fun c => (EntityType.client, c.id)))
      ++ ((s.projects.filter (fun pj => pj.budget.isSome)).map
        (fun pj => (EntityType.project, pj.id)))
      ++ ((s.positions.filter (fun p => p.budget.isSome)).map
        (fun p => (EntityType.position, p.id))) ∧
    ∀ r ∈ (getBudgetConsumption ⟨none, none, none⟩ s).1,
      (r.entity_type = EntityType.client →
        (getClientConsumption s r.entity_id).1 = some r) ∧
      (r.entity_type = EntityType.project →
        (getProjectConsumption s r.entity_id).1 = some r) ∧
      (r.entity_type = EntityType.position →
        (getPositionConsumption s r.entity_id).1 = some r) := by
  have hred : (getBudgetConsumption ⟨none, none, none⟩ s).1 =
      (getAllBudgetConsumption s).1 := rfl
  constructor
  · rw [hred, getAllBudgetConsumption_fst, List.map_append, List.map_append]
    have hcli : ((( (clientsWithBudgetsQuery s).map (·.id)).filterMap
          (fun i => (getClientConsumption s i).1)).map
          (fun r => (r.entity_type, r.entity_id))) =
        (s.clients.filter (fun c =>
          s.projects.any (fun pj => pj.client_id == c.id && pj.budget.isSome))).map
          (fun c => (EntityType.client, c.id)) := by
      rw [List.filterMap_map]
      refine filterMap_map_of_forall _ _ _ _ ?_
      intro c hc
      obtain ⟨rep, h1, h2, h3⟩ :=
        client_report_exists s c.id ⟨c, (List.mem_filter.mp hc).1, rfl⟩
      exact ⟨rep, h1, by rw [h2, h3]⟩
    have hproj : ((( (projectsWithBudgetsQuery s).map (·.id)).filterMap
          (fun i => (getProjectConsumption s i).1)).map
          (fun r => (r.entity_type, r.entity_id))) =
        (s.projects.filter (fun pj => pj.budget.isSome)).map
          (fun pj => (EntityType.project, pj.id)) := by
      rw [List.filterMap_map]
      refine filterMap_map_of_forall _ _ _ _ ?_
      intro pj hpj
      obtain ⟨rep, h1, h2, h3⟩ :=
        project_report_exists s pj.id ⟨pj, (List.mem_filter.mp hpj).1, rfl⟩
      exact ⟨rep, h1, by rw [h2, h3]⟩
    have hposn : ((( (positionsWithBudgetsQuery s).map (·.id)).filterMap
          (fun i => (getPositionConsumption s i).1)).map
          (fun r => (r.entity_type, r.entity_id))) =
        (s.positions.filter (fun p => p.budget.isSome)).map
          (fun p => (EntityType.position, p.id)) := by
      rw [List.filterMap_map]
      refine filterMap_map_of_forall _ _ _ _ ?_
      intro p hp
      obtain ⟨rep, h1, h2, h3⟩ :=
        position_report_exists s p.id ⟨p, (List.mem_filter.mp hp).1, rfl⟩
      exact ⟨rep, h1, by rw [h2, h3]⟩
    rw [hcli, hproj, hposn]
  · intro r hr
    rw [hred, getAllBudgetConsumption_fst] at hr
    simp only [List.mem_append, List.mem_filterMap] at hr
    rcases hr with ((⟨i, hi, hrep⟩ | ⟨i, hi, hrep⟩) | ⟨i, hi, hrep⟩)
    · obtain ⟨hT, hI⟩ := getClientConsumption_fields s i r hrep
      refine ⟨fun _ => ?_, fun habs => ?_, fun habs => ?_⟩
      · rw [hI]
        exact hrep
      · rw [hT] at habs
        cases habs
      · rw [hT] at habs
        cases habs
    · obtain ⟨hT, hI⟩ := getProjectConsumption_fields s i r hrep
      refine ⟨fun habs => ?_, fun _ => ?_, fun habs => ?_⟩
      · rw [hT] at habs
        cases habs
      · rw [hI]
        exact hrep
      · rw [hT] at habs
        cases habs
    · obtain ⟨hT, hI⟩ := getPositionConsumption_fields s i r hrep
      refine ⟨fun habs => ?_, fun habs => ?_, fun _ => ?_⟩
      · rw [hT] at habs
        cases habs
      · rw [hT] at habs
        cases habs
      · rw [hI]
        exact hrep

theorem demoClientReport_mem :
    demoClientReport ∈ (getBudgetConsumption ⟨none, none, none⟩ demoStore).1 := by
  norm_num [getBudgetConsumption, getAllBudgetConsumption, optIdTruthy, dbSelect,
    clientsWithBudgetsQuery, projectsWithBudgetsQuery, positionsWithBudgetsQuery,
    reportLoop, getClientConsumption, getProjectConsumption, getPositionConsumption,
    clientQuery, projectQuery, positionQuery, clientBudgetQuery, clientConsumptionQuery,
    projectConsumptionQuery, parseNullableNumeric, parseNumericOr0, demoStore,
    demoClientReport, List.filterMap_cons]

theorem unscoped_reports_structure_witness :
    (getClientConsumption demoStore demoClientReport.entity_id).1 =
      some demoClientReport :=
  ((unscoped_reports_structure demoStore).2 demoClientReport demoClientReport_mem).1 rfl

theorem foldl_add_eq {α : Type} (f : α → ℚ) (l : List α) (a : ℚ) :
    l.foldl (fun acc x => acc + f x) a = a + (l.map f).sum := by
  induction l generalizing a with
  | nil => simp
  | cons x xs ih => simp [ih, add_assoc]

theorem sum_filterMap_eq_sum_map {α β : Type} (l : List α) (g : α → Option β)
    (f : β → ℚ) (v : α → ℚ)
    (H : ∀ x ∈ l, (g x = none → v x = 0) ∧ (∀ c, g x = some c → f c = v x)) :
    ((l.filterMap g).map f).sum = (l.map v).sum := by
  induction l with
  | nil => rfl
  | cons a as ih =>
    have ha := H a (List.mem_cons_self a as)
    have ih2 := ih (fun x hx => H x (List.mem_cons_of_mem a hx))
    rw [List.filterMap_cons]
    cases hga : g a with
    | none =>
      dsimp only
      rw [ih2, List.map_cons, List.sum_cons, ha.1 hga, zero_add]
    | some c =>
      dsimp only
      rw [List.map_cons, List.map_cons, List.sum_cons, List.sum_cons, ih2,
        ha.2 c hga]

theorem positionConsumedAmount_eq (s : Store)
    (hids : (s.positions.map (fun p => p.id)).Nodup)
    (hhours : ∀ e ∈ s.time_entries, 0 ≤ e.hours)
    (p : Position) (hp : p ∈ s.positions) :
    positionConsumedAmount s p.id =
      ((s.time_entries.filter (fun e => e.position_id == p.id)).map (·.hours)).sum *
        p.hourly_rate.getD 0 := by
  have hsome : (s.positions.find? (fun q => q.id == p.id)).isSome :=
    List.find?_isSome.mpr ⟨p, hp, by simp⟩
  rcases hfind : s.positions.find? (fun q => q.id == p.id) with _ | q
  · rw [hfind] at hsome
    simp at hsome
  · have hq_mem : q ∈ s.positions := List.mem_of_find?_eq_some hfind
    have hq_id : (q.id == p.id) = true :=
      List.find?_some (p := fun (r : Position) => r.id == p.id) hfind
    have hqp : q = p :=
      List.inj_on_of_nodup_map hids hq_mem hp (by simpa using hq_id)
    subst hqp
    have hsum0 : 0 ≤ ((s.time_entries.filter
        (fun e => e.position_id == q.id)).map (·.hours)).sum := by
      refine List.sum_nonneg ?_
      intro x hx
      obtain ⟨e, he, rfl⟩ := List.mem_map.mp hx
      exact hhours e (List.mem_filter.mp he).1
    have hq : (positionQuery q.id s).head? =
        some { id := q.id
               name := q.name
               budget := q.budget
               hourly_rate := q.hourly_rate
               total_hours :=
                 if (s.time_entries.filter (fun e => e.position_id == q.id)).isEmpty
                 then none
                 else some (((s.time_entries.filter
                   (fun e => e.position_id == q.id)).map (·.hours)).sum) } := by
      unfold positionQuery
      rw [List.head?_map, List.filter_head?, hfind]
      rfl
    unfold positionConsumedAmount getPositionConsumption
    dsimp only [dbSelect]
    rw [hq]
    dsimp only
    have hth : parseNumericOr0
        (if (s.time_entries.filter (fun e => e.position_id == q.id)).isEmpty
         then none
         else some (((s.time_entries.filter
           (fun e => e.position_id == q.id)).map (·.hours)).sum)) =
        ((s.time_entries.filter (fun e => e.position_id == q.id)).map (·.hours)).sum := by
      by_cases hemp : (s.time_entries.filter (fun e => e.position_id == q.id)).isEmpty
      · rw [if_pos hemp]
        rw [List.isEmpty_iff.mp hemp]
        simp [parseNumericOr0]
      · rw [if_neg hemp]
        rfl
    rw [hth]
    rcases hr : q.hourly_rate with _ | rate
    · simp [parseNullableNumeric, hr]
    · have hgetD : (some rate).getD 0 = rate := rfl
      rw [hgetD]
      dsimp only [parseNullableNumeric]
      by_cases hrz : rate = 0
      · subst hrz
        rw [if_neg (by simp)]
        rw [mul_zero]
      · by_cases hpos :
          0 < ((s.time_entries.filter (fun e => e.position_id == q.id)).map (·.hours)).sum
        · rw [if_pos ⟨hrz, hpos⟩]
          rw [mul_comm]
        · have hz :
              ((s.time_entries.filter (fun e => e.position_id == q.id)).map (·.hours)).sum
                = 0 :=
            le_antisymm (not_lt.mp hpos) hsum0
          rw [if_neg (fun hand => hpos hand.2)]
          rw [hz, zero_mul]

theorem consumption_groups_sum (s : Store)
    (hids : (s.positions.map (fun p => p.id)).Nodup)
    (hhours : ∀ e ∈ s.time_entries, 0 ≤ e.hours) (cond : Position → Bool) :
    (((s.positions.filter cond).filterMap (fun p =>
        let es := s.time_entries.filter (fun e => e.position_id == p.id)
        if es.isEmpty then none
        else some ({ total_hours := some ((es.map (·.hours)).sum)
                     position_hourly_rate := p.hourly_rate } : ConsumptionRow))).map
      (fun (c : ConsumptionRow) =>
        parseNumericOr0 c.total_hours * parseNumericOr0 c.position_hourly_rate)).sum =
    ((s.positions.filter cond).map (fun p => positionConsumedAmount s p.id)).sum := by
  refine sum_filterMap_eq_sum_map _ _ _ _ ?_
  intro p hp
  have hv := positionConsumedAmount_eq s hids hhours p (List.mem_filter.mp hp).1
  dsimp only
  constructor
  · intro hg
    by_cases hemp : (s.time_entries.filter (fun e => e.position_id == p.id)).isEmpty
    · rw [hv, List.isEmpty_iff.mp hemp]
      simp
    · rw [if_neg hemp] at hg
      cases hg
  · intro c hg
    by_cases hemp : (s.time_entries.filter (fun e => e.position_id == p.id)).isEmpty
    · rw [if_pos hemp] at hg
      cases hg
    · rw [if_neg hemp] at hg
      obtain rfl := Option.some.inj hg
      dsimp only [parseNumericOr0, Option.getD]
      rw [hv]
      rfl

/-- C3: the project-scope report's consumed amount equals the sum of
the position-scope consumed amounts of the project's positions, and the
client-scope report's consumed amount equals the same sum over all
positions of all the client's projects.  The store is assumed
well-formed: position ids are unique (serial primary key) and logged
hours are non-negative (the schema stores positive hours). -/
theorem consumed_amount_additive (s : Store)
    (hids : (s.positions.map (fun p => p.id)).Nodup)
    (hhours : ∀ e ∈ s.time_entries, 0 ≤ e.hours) :
    (∀ (pid : Int) (r : BudgetConsumptionReport),
      (getProjectConsumption s pid).1 = some r →
      r.consumed_amount =
        ((s.positions.filter (fun p => p.project_id == pid)).map
          (fun p => positionConsumedAmount s p.id)).sum) ∧
    (∀ (cid : Int) (r : BudgetConsumptionReport),
      (getClientConsumption s cid).1 = some r →
      r.consumed_amount =
        ((s.positions.filter (fun p =>
            s.projects.any (fun pj => pj.id == p.project_id && pj.client_id == cid))).map
          (fun p => positionConsumedAmount s p.id)).sum) := by
  constructor
  · intro pid r h
    unfold getProjectConsumption at h
    dsimp only [dbSelect] at h
    rcases hq : (projectQuery pid s).head? with _ | row
    · rw [hq] at h
      cases h
    · rw [hq] at h
      dsimp only at h
      obtain rfl := Option.some.inj h
      show List.foldl
          (fun acc c => acc + parseNumericOr0 c.total_hours *
            parseNumericOr0 c.position_hourly_rate) 0 (projectConsumptionQuery pid s) = _
      rw [foldl_add_eq
        (fun (c : ConsumptionRow) =>
          parseNumericOr0 c.total_hours * parseNumericOr0 c.position_hourly_rate),
        zero_add]
      unfold projectConsumptionQuery
      exact consumption_groups_sum s hids hhours _
  · intro cid r h
    unfold getClientConsumption at h
    dsimp only [dbSelect] at h
    rcases hq : (clientQuery cid s).head? with _ | row
    · rw [hq] at h
      cases h
    · rw [hq] at h
      dsimp only at h
      obtain rfl := Option.some.inj h
      show List.foldl
          (fun acc c => acc + parseNumericOr0 c.total_hours *
            parseNumericOr0 c.position_hourly_rate) 0 (clientConsumptionQuery cid s) = _
      rw [foldl_add_eq
        (fun (c : ConsumptionRow) =>
          parseNumericOr0 c.total_hours * parseNumericOr0 c.position_hourly_rate),
        zero_add]
      unfold clientConsumptionQuery
      exact consumption_groups_sum s hids hhours _

theorem demoProjectReport_eq :
    (getProjectConsumption demoStore 1).1 = some demoProjectReport := by
  norm_num [getProjectConsumption, dbSelect, projectQuery, projectConsumptionQuery,
    parseNullableNumeric, parseNumericOr0, demoStore, demoProjectReport,
    List.filterMap_cons]

theorem consumed_amount_additive_witness :
    demoProjectReport.consumed_amount =
      ((demoStore.positions.filter (fun p => p.project_id == 1)).map
        (fun p => positionConsumedAmount demoStore p.id)).sum :=
  (consumed_amount_additive demoStore (by simp [demoStore])
    (by norm_num [demoStore])).1 1 demoProjectReport demoProjectReport_eq

end TimeTracker
